import Mathlib

/-!
Verification development for the Market Genome service (`market_genome_main.py`,
`brand_ai_assistant.py`, `email_service.py`, `models.py`).

The Python job record is a string-keyed dictionary; we embed it as an
insertion-ordered association list (`Job`).  The seven-stage pipeline
`analyze_brand_genome` is embedded as `runJob`, a straight-line function over an
environment `RunEnv` that fixes the outcome of each fallible external call
(engine stages may raise; the e-mail sender returns a boolean and never raises,
see `EmailService.send_email`, which catches every exception and returns False).
The chat assistant (`PixaroBrandAssistant.chat` and `_detect_action_type`) is
embedded over explicit conversation history, with the OpenAI calls abstracted
as `Except`-valued outcomes supplied in a `ChatEnv`.
-/

/-- `models.py` `JobStatus`: status of a processing job. -/
inductive JobStatus where
  | pending
  | processing
  | completed
  | failed
deriving DecidableEq

/-- Values stored in a job-record dictionary: strings (messages, paths,
timestamps, ids, e-mail addresses), a `JobStatus`, booleans, and Python `None`. -/
inductive JVal where
  | s : String → JVal
  | status : JobStatus → JVal
  | b : Bool → JVal
  | null : JVal
deriving DecidableEq

/-- A job record: a Python dict embedded as an insertion-ordered association
list with distinct keys maintained by `setKey`. -/
abbrev Job := List (String × JVal)

/-- Python dict assignment `d[k] = v`: replaces the value of an existing key in
place, otherwise appends the new key at the end (insertion order preserved). -/
def setKey : Job → String → JVal → Job
  | [], k, v => [(k, v)]
  | (k', v') :: rest, k, v =>
      if k' = k then (k, v) :: rest else (k', v') :: setKey rest k v

/-- Python `d.get(k)` / `d[k]` lookup. -/
def getKey? : Job → String → Option JVal
  | [], _ => none
  | (k', v') :: rest, k => if k' = k then some v' else getKey? rest k

theorem getKey?_setKey_self (j : Job) (k : String) (v : JVal) :
    getKey? (setKey j k v) k = some v := by
  induction j with
  | nil => simp [setKey, getKey?]
  | cons hd tl ih =>
      by_cases h : hd.1 = k
      · simp [setKey, getKey?, h]
      · simp [setKey, getKey?, h, ih]

theorem getKey?_setKey_ne (j : Job) (k k' : String) (v : JVal) (h : k ≠ k') :
    getKey? (setKey j k v) k' = getKey? j k' := by
  induction j with
  | nil => simp [setKey, getKey?, h]
  | cons hd tl ih =>
      by_cases hk : hd.1 = k
      · simp [setKey, getKey?, hk, h, Ne.symm h]
      · simp [setKey, getKey?, hk, ih]

/-- `setKey` never changes the key sequence when the key is already present. -/
theorem keys_setKey_mem (j : Job) (k : String) (v : JVal)
    (h : k ∈ j.map Prod.fst) :
    (setKey j k v).map Prod.fst = j.map Prod.fst := by
  induction j with
  | nil => simp at h
  | cons hd tl ih =>
      by_cases hk : hd.1 = k
      · simp [setKey, hk]
      · have : k ∈ tl.map Prod.fst := by
          simp at h
          rcases h with h | h
          · exact absurd h.symm (by simpa [eq_comm] using hk)
          · simpa using h
        simp [setKey, hk, ih this]

/-- The job record created by the `/api/analyze` endpoint (`analyze_brand`,
`market_genome_main.py` lines 262-272); the same key set is used by
`/api/chat/generate-report` (plus two extra chat-provenance keys). -/
def initJob (jobId brandInput inputType email createdAt : String) : Job :=
  [("job_id", .s jobId),
   ("status", .status .pending),
   ("message", .s "Analysis starting..."),
   ("brand_input", .s brandInput),
   ("input_type", .s inputType),
   ("email", .s email),
   ("created_at", .s createdAt),
   ("pdf_url", .null),
   ("email_sent", .b false)]

/-- Outcomes of the external calls made by one `analyze_brand_genome` run.
`s1`-`s6` are the six engine stages (data collection, brand DNA, competitor
intel, growth roadmap, content strategy, PDF render): `.ok` carries the
produced artifact, `.error` the exception message.  `emailOk` is the boolean
returned by `send_genome_report_email` (stage 7; it cannot raise).
`errEmailOk` is whether the best-effort failure-notification e-mail in the
`except` block succeeds.  `now` is the completion timestamp. -/
structure RunEnv where
  s1 : Except String String
  s2 : Except String String
  s3 : Except String String
  s4 : Except String String
  s5 : Except String String
  s6 : Except String String
  emailOk : Bool
  errEmailOk : Bool
  now : String

/-- Result of one pipeline run: the final job record, the 1-based indices of
the stages that were attempted (in execution order), the sequence of values
written to the `status` key during the run, and whether the failure
notification path was taken. -/
structure RunResult where
  job : Job
  attempted : List Nat
  trace : List JobStatus
  notifAttempted : Bool

/-- The `except` block of `analyze_brand_genome` (lines 217-229): the status
becomes failed, the message records the captured error reason, and the
failure-notification e-mail is attempted inside a `try`/`except: pass`, so its
own outcome touches nothing in the job record. -/
def failRun (job : Job) (e : String) (attempted : List Nat) : RunResult :=
  let job := setKey job "status" (.status .failed)
  let job := setKey job "message" (.s ("Error generating genome: " ++ e))
  ⟨job, attempted, [.processing, .failed], true⟩

/-- `analyze_brand_genome` (`market_genome_main.py` lines 117-229): straight-line
transcription.  Stage artifacts for stages 1-5 are bound to local variables
only and are never written into the job record; only `pdf_path`/`pdf_url`
(stage 6) and `email_sent` (stage 7) are recorded. -/
def runJob (jobId : String) (job0 : Job) (env : RunEnv) : RunResult :=
  let job := setKey job0 "status" (.status .processing)
  let job := setKey job "message" (.s "Analyzing brand data...")
  let job := setKey job "message" (.s "Collecting brand data from multiple sources...")
  match env.s1 with
  | .error e => failRun job e [1]
  | .ok _brand_data =>
  let job := setKey job "message" (.s "Analyzing brand personality and positioning...")
  match env.s2 with
  | .error e => failRun job e [1, 2]
  | .ok _brand_dna =>
  let job := setKey job "message" (.s "Analyzing competitor landscape...")
  match env.s3 with
  | .error e => failRun job e [1, 2, 3]
  | .ok _competitor_intel =>
  let job := setKey job "message" (.s "Generating growth strategy...")
  match env.s4 with
  | .error e => failRun job e [1, 2, 3, 4]
  | .ok _growth_roadmap =>
  let job := setKey job "message" (.s "Creating content strategy...")
  match env.s5 with
  | .error e => failRun job e [1, 2, 3, 4, 5]
  | .ok _content_strategy =>
  let job := setKey job "message" (.s "Creating Marketing Genome Report...")
  match env.s6 with
  | .error e => failRun job e [1, 2, 3, 4, 5, 6]
  | .ok pdf_path =>
  let job := setKey job "pdf_path" (.s pdf_path)
  let job := setKey job "pdf_url" (.s ("/api/download/report/" ++ jobId))
  let job := setKey job "message" (.s "Sending Marketing Genome Report...")
  let job := setKey job "email_sent" (.b env.emailOk)
  let job := setKey job "status" (.status .completed)
  let job := setKey job "message" (.s "Marketing Genome Report generated successfully!")
  let job := setKey job "completed_at" (.s env.now)
  ⟨job, [1, 2, 3, 4, 5, 6, 7], [.processing, .completed], false⟩

/-- The first stage (1-6) whose external call raises, together with the raised
error message; `none` when every fallible stage succeeds.  Stage 7 (e-mail
delivery) returns a boolean and cannot raise. -/
def firstFail (env : RunEnv) : Option (Nat × String) :=
  match env.s1 with
  | .error e => some (1, e)
  | .ok _ =>
  match env.s2 with
  | .error e => some (2, e)
  | .ok _ =>
  match env.s3 with
  | .error e => some (3, e)
  | .ok _ =>
  match env.s4 with
  | .error e => some (4, e)
  | .ok _ =>
  match env.s5 with
  | .error e => some (5, e)
  | .ok _ =>
  match env.s6 with
  | .error e => some (6, e)
  | .ok _ => none

/-- Lowercasing as Python `str.lower()` does for the ASCII keywords involved. -/
def lowerChars (cs : List Char) : List Char := cs.map Char.toLower

/-- Does `s` begin with `p`? -/
def beginsWith : List Char → List Char → Bool
  | _, [] => true
  | [], _ :: _ => false
  | c :: cs, p :: ps => c == p && beginsWith cs ps

/-- Python `p in s` substring test: `p` occurs contiguously in `s`. -/
def containsSub (s p : List Char) : Bool :=
  match s with
  | [] => beginsWith [] p
  | c :: cs => beginsWith (c :: cs) p || containsSub cs p

/-- `any(phrase in message_lower for phrase in ...)`. -/
def anyPhrase (ps : List String) (msg : List Char) : Bool :=
  ps.any fun p => containsSub msg p.toList

/-- The action-category strings returned by
`PixaroBrandAssistant._detect_action_type`, plus the `"error"` value returned
by `chat` when the OpenAI call raises. -/
inductive ActionType where
  | generate_image
  | generate_report
  | generate_content
  | competitor_analysis
  | predictive_analysis
  | audience_insights
  | campaign_creation
  | general_chat
  | error
deriving DecidableEq

/-- Image-generation phrase list of `_detect_action_type`
(`brand_ai_assistant.py` lines 232-240), checked first. -/
def imagePhrases : List String :=
  ["create a image", "create an image", "generate a image", "generate an image",
   "generate image", "make image", "make a image", "make an image",
   "create a photo", "create photo", "generate a photo", "generate photo", "make photo",
   "design a post", "design post", "create visual", "generate visual",
   "make a post photo", "create post image", "image of", "photo of",
   "image about", "photo about", "picture of", "picture about",
   "graphic about", "graphic of", "design about"]

def reportPhrases : List String :=
  ["generate report", "send report", "create report", "email report"]

def contentPhrases : List String :=
  ["generate post", "create caption", "write post", "generate content"]

def competitorPhrases : List String :=
  ["competitor", "competition", "rival"]

def predictPhrases : List String :=
  ["predict", "forecast", "what if", "scenario"]

def personaPhrases : List String :=
  ["persona", "audience segment", "who is"]

def campaignPhrases : List String :=
  ["campaign", "strategy", "plan"]

/-- `PixaroBrandAssistant._detect_action_type` (lines 227-255): lowercases the
message, then an ordered `if`/`elif` cascade where the first matching category
wins. -/
def detectActionType (message : String) : ActionType :=
  let ml := lowerChars message.toList
  if anyPhrase imagePhrases ml then .generate_image
  else if anyPhrase reportPhrases ml then .generate_report
  else if anyPhrase contentPhrases ml then .generate_content
  else if anyPhrase competitorPhrases ml then .competitor_analysis
  else if anyPhrase predictPhrases ml then .predictive_analysis
  else if anyPhrase personaPhrases ml then .audience_insights
  else if anyPhrase campaignPhrases ml then .campaign_creation
  else .general_chat

inductive Role where
  | user
  | assistant
deriving DecidableEq

/-- One entry of `self.conversation_history`: role, content, timestamp, and the
`image_url` key present only on assistant entries recorded by the
image-generation path. -/
structure ChatMsg where
  role : Role
  content : String
  timestamp : String
  image_url : Option String
deriving DecidableEq

/-- The dictionary returned by `PixaroBrandAssistant.chat`. -/
structure ChatReply where
  response : String
  action_type : ActionType
  needs_report : Bool
  image_url : Option String
deriving DecidableEq

/-- Outcomes of the external AI calls available to one `chat` turn: the
DALL-E image call (`.ok` = image URL) and the chat-completion call
(`.ok` = generated text); `now` is the wall-clock timestamp. -/
structure ChatEnv where
  img : Except String String
  text : Except String String
  now : String

/-- `chat`, image-success reply (line 166), with the user message interpolated
as the prompt. -/
def imageSuccessReply (userMsg : String) : String :=
  "I\x27ve generated an image for you! Here\x27s what I created:\n\n" ++ userMsg ++
  "\n\nWould you like me to create another variation or adjust anything?"

/-- `chat`, exception-path reply (line 219). -/
def chatErrorReply (e brand : String) : String :=
  "I encountered an error: " ++ e ++
  ". Let me try to help you anyway. What would you like to know about " ++ brand ++ "?"

/-- `"report" in user_message.lower() and ("generate" in ... or "send" in ...)`
(line 214). -/
def needsReport (userMsg : String) : Bool :=
  let ml := lowerChars userMsg.toList
  containsSub ml "report".toList &&
    (containsSub ml "generate".toList || containsSub ml "send".toList)

/-- The shared tail of `chat` (lines 186-225): build the OpenAI request; on
success append the assistant message and return it; on exception return the
apologetic reply without touching the history further. -/
def chatTextPath (brand : String) (hist : List ChatMsg) (userMsg : String)
    (action : ActionType) (env : ChatEnv) : List ChatMsg × ChatReply :=
  match env.text with
  | .ok content =>
      (hist ++ [⟨.assistant, content, env.now, none⟩],
       ⟨content, action, needsReport userMsg, none⟩)
  | .error e =>
      (hist, ⟨chatErrorReply e brand, .error, false, none⟩)

/-- `PixaroBrandAssistant.chat` (lines 140-225): appends the user message,
classifies it, serves a successful image generation directly; an unsuccessful
image generation falls through to the text path (the interim error text it
assigns is overwritten there, lines 183-202), as does every other category. -/
def chat (brand : String) (hist : List ChatMsg) (userMsg : String)
    (env : ChatEnv) : List ChatMsg × ChatReply :=
  let hist := hist ++ [⟨.user, userMsg, env.now, none⟩]
  let action := detectActionType userMsg
  match action, env.img with
  | .generate_image, .ok url =>
      let resp := imageSuccessReply userMsg
      (hist ++ [⟨.assistant, resp, env.now, some url⟩],
       ⟨resp, .generate_image, false, some url⟩)
  | .generate_image, .error _ => chatTextPath brand hist userMsg .generate_image env
  | a, _ => chatTextPath brand hist userMsg a env

/-- One entry of the `chat_sessions` registry (`market_genome_main.py`
lines 397-403); the assistant object is represented by the conversation
history it owns. -/
structure Session where
  brand_handle : String
  history : List ChatMsg
  created_at : String
  last_activity : String
deriving DecidableEq

abbrev Sessions := List (String × Session)

def sessGet? : Sessions → String → Option Session
  | [], _ => none
  | (k', v) :: rest, k => if k' = k then some v else sessGet? rest k

def sessSet : Sessions → String → Session → Sessions
  | [], k, v => [(k, v)]
  | (k', v') :: rest, k, v =>
      if k' = k then (k, v) :: rest else (k', v') :: sessSet rest k v

/-- `send_chat_message` (`market_genome_main.py` lines 432-474): unknown
sessions are rejected with a 404; otherwise `last_activity` is refreshed and
the assistant's `chat` runs, its reply forwarded.  `chat` catches its own
exceptions, so the handler never removes or replaces the session. -/
def sendChatMessage (ss : Sessions) (sid msg : String) (env : ChatEnv) :
    Sessions × Except String ChatReply :=
  match sessGet? ss sid with
  | none => (ss, .error "Session not found. Please initialize chat first.")
  | some sess =>
      let hr := chat sess.brand_handle sess.history msg env
      (sessSet ss sid ⟨sess.brand_handle, hr.1, sess.created_at, env.now⟩,
       .ok hr.2)

/-- Iterate `chat` over a list of turns (message, external-call outcomes). -/
def runChat (brand : String) (hist : List ChatMsg) :
    List (String × ChatEnv) → List ChatMsg
  | [] => hist
  | (m, env) :: rest => runChat brand (chat brand hist m env).1 rest

/-- A turn is successful when it produces a normal (non-apology) reply: either
the image path succeeds, or the turn reaches the text path and the completion
call succeeds. -/
def turnOk (m : String) (env : ChatEnv) : Bool :=
  match detectActionType m, env.img with
  | .generate_image, .ok _ => true
  | _, _ => env.text.isOk

/-- Role pattern of `n` successful turns: user, assistant, user, assistant, … -/
def altRoles : Nat → List Role
  | 0 => []
  | n + 1 => .user :: .assistant :: altRoles n

/-- `job.get('brand_input', '')` in `initialize_chat` (line 379). -/
def brandInputOf (j : Job) : String :=
  match getKey? j "brand_input" with
  | some (.s b) => b
  | _ => ""

/-- The loop condition of `initialize_chat` (lines 378-380): case-insensitive
equality of the stored brand input with the requested handle, and a completed
status. -/
def isSeedMatch (handle : String) (j : Job) : Bool :=
  lowerChars (brandInputOf j).toList == lowerChars handle.toList &&
    decide (getKey? j "status" = some (JVal.status .completed))

/-- The job record `initialize_chat` seeds the brand context from: the loop
iterates `genome_jobs` in insertion order and `break`s at the first match. -/
def findSeedJob (jobs : List Job) (handle : String) : Option Job :=
  jobs.find? (isSeedMatch handle)

/-- A value read out of a job record with a `{}` default: either the stored
value or the literal empty dict the source supplies as the default. -/
inductive CtxVal where
  | emptyDict : CtxVal
  | val : JVal → CtxVal
deriving DecidableEq

/-- `job.get(k, {})` (lines 383-387). -/
def ctxGet (j : Job) (k : String) : CtxVal :=
  match getKey? j k with
  | some v => .val v
  | none => .emptyDict

/-- The `brand_context` dictionary assembled in `initialize_chat`
(lines 383-387): `brand_dna`, `audience`, `competitors`. -/
def mkBrandContext (j : Job) : CtxVal × CtxVal × CtxVal :=
  (ctxGet j "brand_dna", ctxGet j "audience", ctxGet j "competitors")

/-- What `/api/chat/init` reports about the brand context: the seeded context
(absent when no completed match was found) and the returned `has_context`
flag (`brand_context is not None`). -/
structure InitResult where
  brand_context : Option (CtxVal × CtxVal × CtxVal)
  has_context : Bool
deriving DecidableEq

/-- The context-seeding part of `initialize_chat` (lines 374-388, 424):
`brand_context` stays `None` unless a completed matching job is found. -/
def initChat (jobs : List Job) (handle : String) : InitResult :=
  match findSeedJob jobs handle with
  | some j => ⟨some (mkBrandContext j), true⟩
  | none => ⟨none, false⟩

/-- Second definition for the refinement comparison, following the spec's
words: "attempts to seed `brandContext` from the **most recently completed**
JobRecord whose input brand matches (case-insensitive)" — among the matching
completed records, the one with the greatest `completed_at` timestamp. -/
def completedAtOf (j : Job) : String :=
  match getKey? j "completed_at" with
  | some (.s t) => t
  | _ => ""

/-- Lexicographic order on character lists (executable timestamp comparison:
ISO timestamps compare chronologically this way). -/
def ltChars : List Char → List Char → Bool
  | [], [] => false
  | [], _ :: _ => true
  | _ :: _, [] => false
  | a :: as, b :: bs => if a < b then true else if b < a then false else ltChars as bs

def laterCompleted (a b : Job) : Job :=
  if ltChars (completedAtOf a).toList (completedAtOf b).toList then b else a

def findSeedJobSpec (jobs : List Job) (handle : String) : Option Job :=
  match jobs.filter (isSeedMatch handle) with
  | [] => none
  | j :: rest => some (rest.foldl laterCompleted j)

/-- Job records producible by this codebase: freshly created by an analysis
request, or the outcome of a pipeline run on a freshly created record. -/
def pipelineJob (j : Job) : Prop :=
  (∃ a b c d e, j = initJob a b c d e) ∨
  (∃ i a b c d e env, j = (runJob i (initJob a b c d e) env).job)

theorem sessGet?_sessSet_self (ss : Sessions) (k : String) (v : Session) :
    sessGet? (sessSet ss k v) k = some v := by
  induction ss with
  | nil => simp [sessSet, sessGet?]
  | cons hd tl ih =>
      by_cases h : hd.1 = k
      · simp [sessSet, sessGet?, h]
      · simp [sessSet, sessGet?, h, ih]

/-- A pipeline run only ever writes the keys `status`, `message`, `pdf_path`,
`pdf_url`, `email_sent`, `completed_at`; every other key is left as it was at
job creation. -/
theorem runJob_getKey?_unwritten (i : String) (j0 : Job) (env : RunEnv) (k : String)
    (h1 : "status" ≠ k) (h2 : "message" ≠ k) (h3 : "pdf_path" ≠ k)
    (h4 : "pdf_url" ≠ k) (h5 : "email_sent" ≠ k) (h6 : "completed_at" ≠ k) :
    getKey? (runJob i j0 env).job k = getKey? j0 k := by
  obtain ⟨s1, s2, s3, s4, s5, s6, eo, ee, now⟩ := env
  cases s1 <;> cases s2 <;> cases s3 <;> cases s4 <;> cases s5 <;> cases s6 <;>
    simp [runJob, failRun, getKey?_setKey_ne _ _ _ _ h1, getKey?_setKey_ne _ _ _ _ h2,
      getKey?_setKey_ne _ _ _ _ h3, getKey?_setKey_ne _ _ _ _ h4,
      getKey?_setKey_ne _ _ _ _ h5, getKey?_setKey_ne _ _ _ _ h6]

/-- No record this codebase produces ever holds the `brand_dna`, `audience` or
`competitors` keys that `initialize_chat` reads. -/
theorem pipelineJob_no_context_keys (j : Job) (h : pipelineJob j) :
    getKey? j "brand_dna" = none ∧ getKey? j "audience" = none ∧
      getKey? j "competitors" = none := by
  rcases h with ⟨a, b, c, d, e, rfl⟩ | ⟨i, a, b, c, d, e, env, rfl⟩
  · simp [initJob, getKey?]
  · refine ⟨?_, ?_, ?_⟩ <;>
      · rw [runJob_getKey?_unwritten _ _ _ _ (by decide) (by decide) (by decide)
            (by decide) (by decide) (by decide)]
        simp [initJob, getKey?]

/-- C1: every submitted job starts `Pending`; a run writes `Processing` first
and then exactly one terminal status, `Completed` or `Failed`, which is also
the final value of the record's `status` key — no transition skips
`Processing`, and nothing is written after the terminal status. -/
theorem runJob_status_lifecycle (i a b c d e : String) (env : RunEnv) :
    getKey? (initJob a b c d e) "status" = some (.status .pending) ∧
    (((runJob i (initJob a b c d e) env).trace = [.processing, .completed] ∧
      getKey? (runJob i (initJob a b c d e) env).job "status" =
        some (.status .completed)) ∨
     ((runJob i (initJob a b c d e) env).trace = [.processing, .failed] ∧
      getKey? (runJob i (initJob a b c d e) env).job "status" =
        some (.status .failed))) := by
  refine ⟨by simp [initJob, getKey?], ?_⟩
  obtain ⟨s1, s2, s3, s4, s5, s6, eo, ee, now⟩ := env
  cases s1 <;> cases s2 <;> cases s3 <;> cases s4 <;> cases s5 <;> cases s6 <;>
    simp [runJob, failRun, getKey?_setKey_self, getKey?_setKey_ne]

/-- C4: when all six fallible stages succeed, the job finishes `Completed` with
the artifact URL set; the delivery outcome is recorded only in the separate
`email_sent` boolean, so a failed delivery (`emailOk = false`) still yields a
`Completed` terminal status. -/
theorem all_stages_ok_completed_delivery_flag (i a b c d e : String) (env : RunEnv)
    (h : firstFail env = none) :
    getKey? (runJob i (initJob a b c d e) env).job "status" =
      some (.status .completed) ∧
    getKey? (runJob i (initJob a b c d e) env).job "pdf_url" =
      some (.s ("/api/download/report/" ++ i)) ∧
    getKey? (runJob i (initJob a b c d e) env).job "email_sent" =
      some (.b env.emailOk) ∧
    (runJob i (initJob a b c d e) env).trace = [.processing, .completed] := by
  obtain ⟨s1, s2, s3, s4, s5, s6, eo, ee, now⟩ := env
  cases s1 <;> cases s2 <;> cases s3 <;> cases s4 <;> cases s5 <;> cases s6 <;>
    simp_all [firstFail, runJob, failRun, getKey?_setKey_self, getKey?_setKey_ne]

/-- A run in which every stage succeeds but the report e-mail delivery fails. -/
def envAllOkNoEmail : RunEnv :=
  ⟨.ok "DATA", .ok "DNA", .ok "INTEL", .ok "ROADMAP", .ok "CONTENT",
   .ok "reports/genome_j1.pdf", false, true, "2024-05-05T10:00:00"⟩

theorem all_stages_ok_completed_delivery_flag_witness :
    firstFail envAllOkNoEmail = none ∧
    getKey? (runJob "j1" (initJob "j1" "acme.example" "auto" "u@x.com" "t0")
        envAllOkNoEmail).job "status" = some (.status .completed) ∧
    getKey? (runJob "j1" (initJob "j1" "acme.example" "auto" "u@x.com" "t0")
        envAllOkNoEmail).job "email_sent" = some (.b false) :=
  ⟨rfl,
   (all_stages_ok_completed_delivery_flag "j1" "j1" "acme.example" "auto" "u@x.com"
      "t0" envAllOkNoEmail rfl).1,
   (all_stages_ok_completed_delivery_flag "j1" "j1" "acme.example" "auto" "u@x.com"
      "t0" envAllOkNoEmail rfl).2.2.1⟩

/-- `env` with the outcome of the best-effort failure-notification e-mail
replaced. -/
def setErrEmail (env : RunEnv) (bb : Bool) : RunEnv :=
  ⟨env.s1, env.s2, env.s3, env.s4, env.s5, env.s6, env.emailOk, bb, env.now⟩

/-- C5: when stage `k` is the first stage to raise, exactly stages `1..k` were
attempted (the run stops immediately), the status becomes `Failed` with the
captured reason recorded in `message`, a failure notification is attempted,
and the run's entire outcome is independent of whether that notification
itself succeeds — its failure is swallowed and can never mask the reason. -/
theorem stage_failure_stops_run (i : String) (j0 : Job) (env : RunEnv)
    (k : Nat) (e : String) (h : firstFail env = some (k, e)) :
    (runJob i j0 env).attempted = List.range' 1 k ∧
    getKey? (runJob i j0 env).job "status" = some (.status .failed) ∧
    getKey? (runJob i j0 env).job "message" =
      some (.s ("Error generating genome: " ++ e)) ∧
    (runJob i j0 env).notifAttempted = true ∧
    ∀ bb, runJob i j0 (setErrEmail env bb) = runJob i j0 env := by
  obtain ⟨s1, s2, s3, s4, s5, s6, eo, ee, now⟩ := env
  cases s1 <;> cases s2 <;> cases s3 <;> cases s4 <;> cases s5 <;> cases s6 <;>
    simp [firstFail] at h <;> obtain ⟨rfl, rfl⟩ := h <;>
    simp [runJob, failRun, setErrEmail, getKey?_setKey_self, getKey?_setKey_ne,
      List.range']

/-- A run whose third stage (competitor analysis) raises. -/
def envStage3Fails : RunEnv :=
  ⟨.ok "ART1", .ok "ART2", .error "boom", .ok "ART4", .ok "ART5",
   .ok "reports/genome_j3.pdf", true, false, "2024-05-06T10:00:00"⟩

theorem stage_failure_stops_run_witness :
    firstFail envStage3Fails = some (3, "boom") ∧
    (runJob "j2" (initJob "j2" "acme.example" "auto" "u@x.com" "t0")
        envStage3Fails).attempted = List.range' 1 3 ∧
    getKey? (runJob "j2" (initJob "j2" "acme.example" "auto" "u@x.com" "t0")
        envStage3Fails).job "message" =
      some (.s ("Error generating genome: " ++ "boom")) :=
  ⟨rfl,
   (stage_failure_stops_run "j2" (initJob "j2" "acme.example" "auto" "u@x.com" "t0")
      envStage3Fails 3 "boom" rfl).1,
   (stage_failure_stops_run "j2" (initJob "j2" "acme.example" "auto" "u@x.com" "t0")
      envStage3Fails 3 "boom" rfl).2.2.1⟩

/-- C2 counterexample: with stages 1 and 2 producing artifacts `"ART1"` and
`"ART2"` and stage 3 raising, the claim says the job record afterwards contains
the stage-1 and stage-2 artifacts, readable through the status query.  In fact
the run keeps stage outputs only in local variables: the final record is
exactly the creation-time record with `status`/`message` overwritten, and no
key of it holds either artifact. -/
theorem stage_results_missing_counterexample :
    (runJob "j3" (initJob "j3" "acme.example" "auto" "u@x.com" "t0")
        envStage3Fails).job =
      [("job_id", .s "j3"),
       ("status", .status .failed),
       ("message", .s "Error generating genome: boom"),
       ("brand_input", .s "acme.example"),
       ("input_type", .s "auto"),
       ("email", .s "u@x.com"),
       ("created_at", .s "t0"),
       ("pdf_url", .null),
       ("email_sent", .b false)] ∧
    ((runJob "j3" (initJob "j3" "acme.example" "auto" "u@x.com" "t0")
        envStage3Fails).job.all fun kv =>
      decide (kv.2 ≠ JVal.s "ART1") && decide (kv.2 ≠ JVal.s "ART2")) = true := by
  decide

/-- C2 amended: if stage `k` fails, the job record keeps exactly its
creation-time keys — per-stage artifacts of stages `1..k-1` are never written
into it (they live only in local variables), so nothing of them is readable
through the status query; `pdf_url` is still `None`, `pdf_path` absent, and the
status is `Failed`. -/
theorem failed_run_keeps_creation_keys (i a b c d e : String) (env : RunEnv)
    (k : Nat) (err : String) (h : firstFail env = some (k, err)) :
    (runJob i (initJob a b c d e) env).job.map Prod.fst =
      ["job_id", "status", "message", "brand_input", "input_type", "email",
       "created_at", "pdf_url", "email_sent"] ∧
    getKey? (runJob i (initJob a b c d e) env).job "pdf_url" = some .null ∧
    getKey? (runJob i (initJob a b c d e) env).job "pdf_path" = none ∧
    getKey? (runJob i (initJob a b c d e) env).job "status" =
      some (.status .failed) := by
  obtain ⟨s1, s2, s3, s4, s5, s6, eo, ee, now⟩ := env
  cases s1 <;> cases s2 <;> cases s3 <;> cases s4 <;> cases s5 <;> cases s6 <;>
    simp [firstFail] at h <;>
    simp [runJob, failRun, initJob, setKey, getKey?]

theorem failed_run_keeps_creation_keys_witness :
    firstFail envStage3Fails = some (3, "boom") ∧
    (runJob "j4" (initJob "j4" "acme.example" "auto" "u@x.com" "t0")
        envStage3Fails).job.map Prod.fst =
      ["job_id", "status", "message", "brand_input", "input_type", "email",
       "created_at", "pdf_url", "email_sent"] ∧
    getKey? (runJob "j4" (initJob "j4" "acme.example" "auto" "u@x.com" "t0")
        envStage3Fails).job "pdf_path" = none :=
  ⟨rfl,
   (failed_run_keeps_creation_keys "j4" "j4" "acme.example" "auto" "u@x.com" "t0"
      envStage3Fails 3 "boom" rfl).1,
   (failed_run_keeps_creation_keys "j4" "j4" "acme.example" "auto" "u@x.com" "t0"
      envStage3Fails 3 "boom" rfl).2.2.1⟩

/-- C9: whenever chat initialization over a registry of records this codebase
produced reports `has_context = true`, the seeded brand context is the fixed
triple of empty dicts — the pipeline never stores `brand_dna`, `audience` or
`competitors` into the record it completes, so the flag never implies any
actual prior-analysis data is present. -/
theorem seeded_context_three_empties (jobs : List Job) (handle : String)
    (hall : ∀ j ∈ jobs, pipelineJob j)
    (h : (initChat jobs handle).has_context = true) :
    (initChat jobs handle).brand_context =
      some (CtxVal.emptyDict, CtxVal.emptyDict, CtxVal.emptyDict) := by
  rcases hf : findSeedJob jobs handle with _ | j
  · simp [initChat, hf] at h
  · have hj : j ∈ jobs := List.mem_of_find?_eq_some hf
    obtain ⟨h1, h2, h3⟩ := pipelineJob_no_context_keys j (hall j hj)
    simp [initChat, hf, mkBrandContext, ctxGet, h1, h2, h3]

/-- A completed pipeline run for the brand `brandx`. -/
def jobCompletedBrandx : Job :=
  (runJob "i1" (initJob "i1" "brandx" "auto" "u@x.com" "t0") envAllOkNoEmail).job

theorem seeded_context_three_empties_witness :
    (initChat [jobCompletedBrandx] "BrandX").has_context = true ∧
    (initChat [jobCompletedBrandx] "BrandX").brand_context =
      some (CtxVal.emptyDict, CtxVal.emptyDict, CtxVal.emptyDict) :=
  ⟨by decide,
   seeded_context_three_empties [jobCompletedBrandx] "BrandX"
     (fun j hj => by
        simp only [List.mem_singleton] at hj
        subst hj
        exact Or.inr ⟨"i1", "i1", "brandx", "auto", "u@x.com", "t0",
          envAllOkNoEmail, rfl⟩)
     (by decide)⟩

/-- First-match characterization of `List.find?`. -/
theorem find?_first_match {α : Type} (p : α → Bool) (l : List α) (a : α)
    (h : l.find? p = some a) :
    p a = true ∧ ∃ pre suf, l = pre ++ a :: suf ∧ ∀ x ∈ pre, p x = false := by
  induction l with
  | nil => simp [List.find?] at h
  | cons hd tl ih =>
      by_cases hp : p hd = true
      · have : hd = a := by simpa [List.find?, hp] using h
        subst this
        exact ⟨hp, [], tl, rfl, by simp⟩
      · have htl : tl.find? p = some a := by simpa [List.find?, hp] using h
        obtain ⟨hpa, pre, suf, rfl, hpre⟩ := ih htl
        refine ⟨hpa, hd :: pre, suf, rfl, ?_⟩
        intro x hx
        rcases List.mem_cons.mp hx with rfl | hx
        · simpa using hp
        · exact hpre x hx

/-- A completed January run and a later-completed February run for the same
brand, in registry insertion order. -/
def envOkJan : RunEnv :=
  ⟨.ok "D", .ok "N", .ok "I", .ok "R", .ok "C", .ok "reports/a1.pdf",
   true, true, "2024-01-01T00:00:00"⟩

def envOkFeb : RunEnv :=
  ⟨.ok "D", .ok "N", .ok "I", .ok "R", .ok "C", .ok "reports/a2.pdf",
   true, true, "2024-02-02T00:00:00"⟩

def jobJan : Job :=
  (runJob "a1" (initJob "a1" "brandx" "auto" "u@x.com" "t0") envOkJan).job

def jobFeb : Job :=
  (runJob "a2" (initJob "a2" "brandx" "auto" "u@x.com" "t1") envOkFeb).job

/-- C6 counterexample: with two completed jobs for `brandx` in the registry,
the February one most recently completed, `initialize_chat` seeds from the
*first* record in insertion order (the January one) — not from the most
recently completed record as the claim states.  The spec-following selector
`findSeedJobSpec` picks the February job, and the two records differ. -/
theorem seed_job_not_most_recent_counterexample :
    findSeedJob [jobJan, jobFeb] "BrandX" = some jobJan ∧
    findSeedJobSpec [jobJan, jobFeb] "BrandX" = some jobFeb ∧
    ltChars (completedAtOf jobJan).toList (completedAtOf jobFeb).toList = true ∧
    jobJan ≠ jobFeb := by
  decide

/-- C6 amended: the session's brand context is seeded from the *earliest*
record in registry insertion order whose `brand_input` matches the requested
handle case-insensitively and whose status is completed (every earlier record
fails the match); `has_context` is `true` exactly when such a completed
matching record exists. -/
theorem seed_job_first_match (jobs : List Job) (handle : String) :
    ((initChat jobs handle).has_context = true ↔
      ∃ j ∈ jobs, isSeedMatch handle j = true) ∧
    ∀ j, findSeedJob jobs handle = some j →
      isSeedMatch handle j = true ∧
      ∃ pre suf, jobs = pre ++ j :: suf ∧
        ∀ j' ∈ pre, isSeedMatch handle j' = false := by
  constructor
  · constructor
    · intro h
      rcases hf : findSeedJob jobs handle with _ | j
      · simp [initChat, hf] at h
      · have hfind : jobs.find? (isSeedMatch handle) = some j := by
          simpa [findSeedJob] using hf
        exact ⟨j, List.mem_of_find?_eq_some hfind, List.find?_some hfind⟩
    · rintro ⟨j, hj, hm⟩
      have hs : (jobs.find? (isSeedMatch handle)).isSome = true :=
        List.find?_isSome.mpr ⟨j, hj, hm⟩
      rcases hf : jobs.find? (isSeedMatch handle) with _ | j'
      · rw [hf] at hs
        simp at hs
      · simp [initChat, findSeedJob, hf]
  · intro j hf
    have hfind : jobs.find? (isSeedMatch handle) = some j := by
      simpa [findSeedJob] using hf
    exact find?_first_match _ _ _ hfind

theorem seed_job_first_match_witness :
    (initChat [jobJan] "BrandX").has_context = true :=
  (seed_job_first_match [jobJan] "BrandX").1.mpr
    ⟨jobJan, List.mem_singleton.mpr rfl, by decide⟩

/-- C3: the classifier is an ordered cascade over the lowercased message in
which the image-generation phrase list is consulted first, so any message
matching both an image phrase and a competitor phrase (case-insensitively)
is classified as image generation, never as competitor analysis. -/
theorem detect_image_over_competitor (msg : String)
    (h1 : anyPhrase imagePhrases (lowerChars msg.toList) = true)
    (h2 : anyPhrase competitorPhrases (lowerChars msg.toList) = true) :
    detectActionType msg = .generate_image := by
  have h1' : anyPhrase imagePhrases (lowerChars msg.data) = true := h1
  simp [detectActionType, h1']

theorem detect_image_over_competitor_witness :
    anyPhrase imagePhrases (lowerChars "Generate IMAGE of our Competitor".toList)
      = true ∧
    anyPhrase competitorPhrases
      (lowerChars "Generate IMAGE of our Competitor".toList) = true ∧
    detectActionType "Generate IMAGE of our Competitor" =
      ActionType.generate_image :=
  ⟨by decide, by decide,
   detect_image_over_competitor "Generate IMAGE of our Competitor"
     (by decide) (by decide)⟩

/-- When the text-generation call raises and the turn is not served by a
successful image generation, `send_chat_message` reaches the `except` branch
of `chat`: the session keeps only the appended user message and the reply is
the apologetic error text. -/
theorem sendChatMessage_text_error (ss : Sessions) (sid msg : String)
    (env : ChatEnv) (sess : Session) (e : String)
    (hs : sessGet? ss sid = some sess)
    (ht : env.text = .error e)
    (hni : ¬(detectActionType msg = ActionType.generate_image ∧
             env.img.isOk = true)) :
    sendChatMessage ss sid msg env =
      (sessSet ss sid ⟨sess.brand_handle,
          sess.history ++ [⟨.user, msg, env.now, none⟩],
          sess.created_at, env.now⟩,
       .ok ⟨chatErrorReply e sess.brand_handle, .error, false, none⟩) := by
  have hchat : chat sess.brand_handle sess.history msg env =
      (sess.history ++ [⟨.user, msg, env.now, none⟩],
       ⟨chatErrorReply e sess.brand_handle, .error, false, none⟩) := by
    rcases hI : env.img with eI | url
    · cases hA : detectActionType msg <;>
        simp [chat, hA, hI, chatTextPath, ht]
    · cases hA : detectActionType msg
      case generate_image =>
        exact absurd ⟨hA, by simp [hI, Except.isOk, Except.toBool]⟩ hni
      all_goals simp [chat, hA, hI, chatTextPath, ht]
  simp [sendChatMessage, hs, hchat]

/-- C8: on a known session whose text-generation call fails (and which is not
served by a successful image generation), `sendMessage` still returns a reply
— the apologetic error text, which is never empty — and the session survives
with its prior history intact plus the user message: the failure neither
corrupts nor terminates the session. -/
theorem chat_failure_apologetic_reply (ss : Sessions) (sid msg : String)
    (env : ChatEnv) (sess : Session) (e : String)
    (hs : sessGet? ss sid = some sess)
    (ht : env.text = .error e)
    (hni : ¬(detectActionType msg = ActionType.generate_image ∧
             env.img.isOk = true)) :
    (sendChatMessage ss sid msg env).2 =
      .ok ⟨chatErrorReply e sess.brand_handle, .error, false, none⟩ ∧
    chatErrorReply e sess.brand_handle ≠ "" ∧
    sessGet? (sendChatMessage ss sid msg env).1 sid =
      some ⟨sess.brand_handle,
        sess.history ++ [⟨.user, msg, env.now, none⟩],
        sess.created_at, env.now⟩ := by
  have hsc := sendChatMessage_text_error ss sid msg env sess e hs ht hni
  refine ⟨by rw [hsc], ?_, by rw [hsc]; exact sessGet?_sessSet_self ss sid _⟩
  intro hempty
  have hl := congrArg String.length hempty
  simp only [chatErrorReply, String.length_append] at hl
  have h24 : ("I encountered an error: ").length = 24 := by decide
  have h0 : ("" : String).length = 0 := rfl
  rw [h24, h0] at hl
  omega

def sessionsOneEmpty : Sessions :=
  [("s1", ⟨"acme", [], "2024-05-05T09:00:00", "2024-05-05T09:00:00"⟩)]

def envBothFail : ChatEnv :=
  ⟨.error "image service down", .error "rate limit exceeded", "2024-05-05T09:01:00"⟩

theorem chat_failure_apologetic_reply_witness :
    (sendChatMessage sessionsOneEmpty "s1" "hello there" envBothFail).2 =
      .ok ⟨chatErrorReply "rate limit exceeded" "acme", .error, false, none⟩ ∧
    chatErrorReply "rate limit exceeded" "acme" ≠ "" :=
  have hmain := chat_failure_apologetic_reply sessionsOneEmpty "s1" "hello there"
    envBothFail ⟨"acme", [], "2024-05-05T09:00:00", "2024-05-05T09:00:00"⟩
    "rate limit exceeded" rfl rfl (by decide)
  ⟨hmain.1, hmain.2.1⟩

/-- C10: on a known session, a turn whose text-generation call fails has
already appended the user message before the failure and appends no assistant
message: the history is mutated on error, its assistant entries are unchanged,
and its length — even before the turn — becomes odd. -/
theorem failed_turn_appends_only_user (ss : Sessions) (sid msg : String)
    (env : ChatEnv) (sess : Session) (e : String)
    (hs : sessGet? ss sid = some sess)
    (ht : env.text = .error e)
    (hni : ¬(detectActionType msg = ActionType.generate_image ∧
             env.img.isOk = true))
    (hev : Even sess.history.length) :
    ∃ sess' : Session,
      sessGet? (sendChatMessage ss sid msg env).1 sid = some sess' ∧
      sess'.history = sess.history ++ [⟨.user, msg, env.now, none⟩] ∧
      Odd sess'.history.length ∧
      sess'.history.filter (fun mm => decide (mm.role = Role.assistant)) =
        sess.history.filter (fun mm => decide (mm.role = Role.assistant)) := by
  have hsc := sendChatMessage_text_error ss sid msg env sess e hs ht hni
  refine ⟨⟨sess.brand_handle, sess.history ++ [⟨.user, msg, env.now, none⟩],
      sess.created_at, env.now⟩,
    by rw [hsc]; exact sessGet?_sessSet_self ss sid _, rfl, ?_, ?_⟩
  · have := hev.add_one
    simpa [List.length_append] using this
  · simp [List.filter_append]

/-- Contents of the user-role messages of a history, in order. -/
def userContents (l : List ChatMsg) : List String :=
  (l.filter fun mm => decide (mm.role = Role.user)).map ChatMsg.content

/-- A successful turn appends exactly the user message followed by one
assistant message. -/
theorem chat_ok_shape (brand : String) (hist : List ChatMsg) (m : String)
    (env : ChatEnv) (h : turnOk m env = true) :
    ∃ am : ChatMsg, am.role = .assistant ∧
      (chat brand hist m env).1 = hist ++ [⟨.user, m, env.now, none⟩, am] := by
  rcases hI : env.img with eI | url
  · have htext : ∃ c, env.text = .ok c := by
      rcases ht : env.text with t | c
      · exfalso
        revert h
        cases hA : detectActionType m <;>
          simp [turnOk, hA, hI, ht, Except.isOk, Except.toBool]
      · exact ⟨c, rfl⟩
    obtain ⟨c, ht⟩ := htext
    cases hA : detectActionType m <;>
      exact ⟨⟨.assistant, c, env.now, none⟩, rfl,
        by simp [chat, hA, hI, chatTextPath, ht]⟩
  · cases hA : detectActionType m
    case generate_image =>
      exact ⟨⟨.assistant, imageSuccessReply m, env.now, some url⟩, rfl,
        by simp [chat, hA, hI]⟩
    all_goals
      have htext : ∃ c, env.text = .ok c := by
        rcases ht : env.text with t | c
        · exfalso
          revert h
          simp [turnOk, hA, hI, ht, Except.isOk, Except.toBool]
        · exact ⟨c, rfl⟩
    all_goals obtain ⟨c, ht⟩ := htext
    all_goals
      exact ⟨⟨.assistant, c, env.now, none⟩, rfl,
        by simp [chat, hA, hI, chatTextPath, ht]⟩

theorem runChat_ok_shape (brand : String) (turns : List (String × ChatEnv)) :
    ∀ hist : List ChatMsg, (∀ t ∈ turns, turnOk t.1 t.2 = true) →
      (runChat brand hist turns).length = hist.length + 2 * turns.length ∧
      (runChat brand hist turns).map ChatMsg.role =
        hist.map ChatMsg.role ++ altRoles turns.length ∧
      userContents (runChat brand hist turns) =
        userContents hist ++ turns.map Prod.fst := by
  induction turns with
  | nil => intro hist h; simp [runChat, altRoles, userContents]
  | cons t rest ih =>
      intro hist h
      obtain ⟨m, env⟩ := t
      have hok : turnOk m env = true := h (m, env) (List.mem_cons_self _ _)
      have hrest : ∀ t ∈ rest, turnOk t.1 t.2 = true :=
        fun t htm => h t (List.mem_cons_of_mem _ htm)
      obtain ⟨am, ham, hchat⟩ := chat_ok_shape brand hist m env hok
      obtain ⟨ih1, ih2, ih3⟩ :=
        ih (hist ++ [⟨.user, m, env.now, none⟩, am]) hrest
      refine ⟨?_, ?_, ?_⟩
      · simp only [runChat, hchat, ih1, List.length_append, List.length_cons,
          List.length_nil]
        omega
      · simp only [runChat, hchat, ih2, ham, altRoles, List.map_append,
          List.length_cons]
        simp [List.append_assoc, ham]
      · simp only [runChat, hchat, ih3, List.map_cons]
        simp [userContents, List.filter_append, ham, List.append_assoc]

/-- C7: after `n` successful `sendMessage` turns starting from an empty
history, the history has length exactly `2n`, the roles alternate
user/assistant in call order, and the user entries carry the sent messages in
call order. -/
theorem history_two_per_successful_turn (brand : String)
    (turns : List (String × ChatEnv))
    (h : ∀ t ∈ turns, turnOk t.1 t.2 = true) :
    (runChat brand [] turns).length = 2 * turns.length ∧
    (runChat brand [] turns).map ChatMsg.role = altRoles turns.length ∧
    userContents (runChat brand [] turns) = turns.map Prod.fst := by
  have hshape := runChat_ok_shape brand turns [] h
  simpa [userContents] using hshape

def envTextOk : ChatEnv :=
  ⟨.error "image backend down", .ok "Sure, happy to help!", "2024-05-05T12:00:00"⟩

theorem history_two_per_successful_turn_witness :
    (runChat "acme" []
      [("hello", envTextOk), ("tell me about our rivals", envTextOk)]).length =
        2 * 2 ∧
    (runChat "acme" []
      [("hello", envTextOk), ("tell me about our rivals", envTextOk)]).map
        ChatMsg.role = altRoles 2 :=
  have h : ∀ t ∈ [("hello", envTextOk), ("tell me about our rivals", envTextOk)],
      turnOk t.1 t.2 = true := by decide
  ⟨(history_two_per_successful_turn "acme" _ h).1,
   (history_two_per_successful_turn "acme" _ h).2.1⟩

theorem failed_turn_appends_only_user_witness :
    ∃ sess' : Session,
      sessGet? (sendChatMessage sessionsOneEmpty "s1" "hello there"
        envBothFail).1 "s1" = some sess' ∧
      sess'.history =
        [] ++ [⟨.user, "hello there", envBothFail.now, none⟩] ∧
      Odd sess'.history.length ∧
      sess'.history.filter (fun mm => decide (mm.role = Role.assistant)) =
        ([] : List ChatMsg).filter (fun mm => decide (mm.role = Role.assistant)) :=
  failed_turn_appends_only_user sessionsOneEmpty "s1" "hello there" envBothFail
    ⟨"acme", [], "2024-05-05T09:00:00", "2024-05-05T09:00:00"⟩
    "rate limit exceeded" (by decide) rfl (by decide) ⟨0, rfl⟩
